import Mathlib

/-!
Shallow embedding of the billing and payment core of the `roomrentapi`
repository (rooms, leases, monthly rent invoices, light bills, payments),
together with theorems checking the natural-language specification against
the code.

Monetary values (Mongoose `Number`) are modelled as `ℚ`; timestamps are
modelled as `ℤ` milliseconds since the epoch (JavaScript `Date` subtraction
and comparison act on this value); calendar dates built with
`new Date(year, month, day)` are modelled by `Ymd` with the constructor's
normalization of out-of-range month/day arguments.
-/

namespace RoomRent

/-- Monetary amounts (JavaScript numbers in the source). -/
abbrev Money := ℚ

/-- The shared status enum of `invoiceSchema.status` and
`lightBillSchema.status` in `src/models`. -/
inductive BillStatus where
  | unpaid
  | partially_paid
  | paid
  | overdue
deriving DecidableEq, Repr

/-- `settingsSchema.lateFeeConfig.type` enum. -/
inductive LateFeeType where
  | per_day
  | percentage
deriving DecidableEq, Repr

/-- `settingsSchema.lateFeeConfig` from `src/models/Settings.js`. -/
structure LateFeeConfig where
  type : LateFeeType
  graceDays : Money
  perDayAmount : Money
  percentage : Money
deriving DecidableEq, Repr

/-- The fields of `invoiceSchema` (`src/models/Invoice.js`) that the payment
and late-fee routes read or write.  Entity references are numeric ids;
`dueDate` is a timestamp in milliseconds. -/
structure Invoice where
  lease : ℕ
  baseAmount : Money
  lateFee : Money
  totalAmount : Money
  paidAmount : Money
  dueDate : ℤ
  status : BillStatus
deriving DecidableEq, Repr

/-- A `paymentSchema` record (`Payment` model): created only by the
invoice-pay route, never mutated. -/
structure Payment where
  invoice : ℕ
  amount : Money
deriving DecidableEq, Repr

/-- Typed failures of the pay routes: `invalidAmount` is the
`!amount || amount <= 0` 400-rejection, `conflict` the
"Payment would exceed total invoice amount" rejection. -/
inductive PayError where
  | invalidAmount
  | conflict
deriving DecidableEq, Repr

/-- Post-state of `POST /api/invoices/:id/pay`: the invoice, the payment
ledger, and the reported error if the request was rejected. -/
structure PayResult where
  invoice : Invoice
  payments : List Payment
  error : Option PayError
deriving DecidableEq, Repr

/-- `POST /api/invoices/:id/pay` (`src/routes/invoiceRoutes.js`): rejects a
non-positive amount; rejects when `(paidAmount || 0) + amount` exceeds
`totalAmount`; otherwise records a `Payment`, adds the amount to
`paidAmount` and sets status `paid` when `paidAmount >= totalAmount`, else
`partially_paid` when `paidAmount > 0`, else leaves it unchanged. -/
def payInvoice (amount : Money) (inv : Invoice) (payments : List Payment) :
    PayResult :=
  if amount ≤ 0 then
    ⟨inv, payments, some .invalidAmount⟩
  else
    let newPaidAmount := inv.paidAmount + amount
    if inv.totalAmount < newPaidAmount then
      ⟨inv, payments, some .conflict⟩
    else
      let status :=
        if inv.totalAmount ≤ newPaidAmount then BillStatus.paid
        else if 0 < newPaidAmount then BillStatus.partially_paid
        else inv.status
      ⟨{ inv with paidAmount := newPaidAmount, status := status },
        payments ++ [⟨inv.lease, amount⟩], none⟩

/-- The per-invoice computation of `POST /api/invoices/recalculate-late-fees`:
`diffDays = Math.floor((today - invoice.dueDate) / 86400000)`; when
`diffDays > graceDays` the fee is `(diffDays - graceDays) * perDayAmount`
for a `per_day` config and `baseAmount * percentage / 100` for a
`percentage` config, else `0`. -/
def computeLateFee (cfg : LateFeeConfig) (todayMs : ℤ) (inv : Invoice) : Money :=
  let diffDays : ℤ := (todayMs - inv.dueDate).fdiv 86400000
  if cfg.graceDays < (diffDays : Money) then
    match cfg.type with
    | .per_day => ((diffDays : Money) - cfg.graceDays) * cfg.perDayAmount
    | .percentage => inv.baseAmount * cfg.percentage / 100
  else 0

/-- Loop body of `POST /api/invoices/recalculate-late-fees` in
`src/routes/invoiceRoutes.js` (the live, write-only-on-change variant):
invoices are selected with status in {unpaid, partially_paid}; the invoice
is written (fee and `totalAmount = baseAmount + lateFee`) only when the
recomputed fee differs from the stored one, and only then counted.  The
`Bool` reports whether the invoice was written. -/
def recalcInvoice (cfg : LateFeeConfig) (todayMs : ℤ) (inv : Invoice) :
    Invoice × Bool :=
  if inv.status = .unpaid ∨ inv.status = .partially_paid then
    let lateFee := computeLateFee cfg todayMs inv
    if lateFee ≠ inv.lateFee then
      ({ inv with lateFee := lateFee, totalAmount := inv.baseAmount + lateFee },
        true)
    else (inv, false)
  else (inv, false)

/-- `POST /api/invoices/recalculate-late-fees` over the whole invoice store:
returns the new store and `updatedCount`. -/
def recalculateLateFees (cfg : LateFeeConfig) (todayMs : ℤ) :
    List Invoice → List Invoice × ℕ
  | [] => ([], 0)
  | inv :: rest =>
    let r := recalcInvoice cfg todayMs inv
    let rs := recalculateLateFees cfg todayMs rest
    (r.1 :: rs.1, (if r.2 then 1 else 0) + rs.2)

/-- Loop body of the older `recalculate-late-fees` variant
(`src/unnamed/part_007`): writes every selected invoice unconditionally and
re-derives its status (`paid` when `paidAmount >= totalAmount`; else, past
the due date, `partially_paid` when `paidAmount > 0` and `overdue`
otherwise; else unchanged). -/
def recalcInvoiceVariant (cfg : LateFeeConfig) (todayMs : ℤ) (inv : Invoice) :
    Invoice :=
  if inv.status = .unpaid ∨ inv.status = .partially_paid then
    let lateFee := computeLateFee cfg todayMs inv
    let totalAmount := inv.baseAmount + lateFee
    let status :=
      if totalAmount ≤ inv.paidAmount then BillStatus.paid
      else if inv.dueDate < todayMs then
        if 0 < inv.paidAmount then BillStatus.partially_paid
        else BillStatus.overdue
      else inv.status
    { inv with lateFee := lateFee, totalAmount := totalAmount, status := status }
  else inv

/-- An operation the system can apply to a stored invoice: a payment request
or one run of the (live) late-fee recalculation under some settings and
clock value. -/
inductive InvOp where
  | pay (amount : Money)
  | recalc (cfg : LateFeeConfig) (todayMs : ℤ)

/-- Effect of one operation on the invoice record (a rejected payment leaves
the record untouched, as the route returns before mutating). -/
def invStep (op : InvOp) (inv : Invoice) : Invoice :=
  match op with
  | .pay amount => (payInvoice amount inv []).invoice
  | .recalc cfg todayMs => (recalcInvoice cfg todayMs inv).1

/-- An operation sequence applied left to right. -/
def invRun (ops : List InvOp) (inv : Invoice) : Invoice :=
  ops.foldl (fun i op => invStep op i) inv

/-- Modelled from the spec: the pure status function of
`(paidAmount, totalAmount)` that §4.3 says the stored status always
equals (`paid` when fully paid, `partially_paid` when partly paid,
`unpaid` otherwise). -/
def derivedStatusSpec (paidAmount totalAmount : Money) : BillStatus :=
  if totalAmount ≤ paidAmount then .paid
  else if 0 < paidAmount then .partially_paid
  else .unpaid

/-- C4/C5/C9 scenario constants. -/
def lateInvoiceC5 : Invoice := ⟨0, 5000, 0, 5000, 0, 0, .unpaid⟩

/-- The spec's scenario config: per-day fees, `graceDays = 3`,
`perDayAmount = 5`. -/
def perDayConfigC5 : LateFeeConfig := ⟨.per_day, 3, 5, 1⟩

/-- Fresh invoice used by the C6 traces: `baseAmount = totalAmount = 1000`,
nothing paid, due at epoch. -/
def invC6 : Invoice := ⟨0, 1000, 0, 1000, 0, 0, .unpaid⟩

/-- Per-day config with no grace and a 5-per-day fee. -/
def cfgC6A : LateFeeConfig := ⟨.per_day, 0, 5, 1⟩

/-- Per-day config whose fee is zero (settings changed between runs). -/
def cfgC6B : LateFeeConfig := ⟨.per_day, 0, 0, 1⟩

/-- Gregorian leap-year test, as JavaScript `Date` implements it. -/
def isLeapYear (y : ℤ) : Bool := (y % 4 == 0 && y % 100 != 0) || y % 400 == 0

/-- Days in a month; `m` is the 0-indexed month as in JavaScript. -/
def daysInMonth (y m : ℤ) : ℤ :=
  if m = 1 then (if isLeapYear y then 29 else 28)
  else if m = 3 ∨ m = 5 ∨ m = 8 ∨ m = 10 then 30
  else 31

/-- A calendar date as JavaScript's `Date` holds it: year, 0-indexed month,
day of month. -/
structure Ymd where
  year : ℤ
  month : ℤ
  day : ℤ
deriving DecidableEq, Repr

/-- `new Date(year, month, day)` for the arguments the generation code
produces: month overflow carries into the year; day `0` is the last day of
the previous month; a day just past the month's length carries into the
next month (a 1..31 billing day in a shorter month). -/
def mkDate (y m d : ℤ) : Ymd :=
  let y1 := y + m.fdiv 12
  let m1 := m.emod 12
  if d ≤ 0 then
    let y2 := if m1 = 0 then y1 - 1 else y1
    let m2 := if m1 = 0 then 11 else m1 - 1
    ⟨y2, m2, daysInMonth y2 m2 + d⟩
  else if d ≤ daysInMonth y1 m1 then ⟨y1, m1, d⟩
  else
    let y2 := if m1 = 11 then y1 + 1 else y1
    let m2 := if m1 = 11 then 0 else m1 + 1
    ⟨y2, m2, d - daysInMonth y1 m1⟩

/-- `leaseSchema.status` enum (`src/models/Lease.js`). -/
inductive LeaseStatus where
  | upcoming
  | active
  | ended
  | cancelled
deriving DecidableEq, Repr

/-- The fields of `leaseSchema` the invoice-generation and lease routes
read.  `startDate`/`endDate` are timestamps in milliseconds (`endDate` is
optional in the schema); `billingDay` is optional with schema default 1. -/
structure Lease where
  id : ℕ
  room : ℕ
  startDate : ℤ
  endDate : Option ℤ
  rentPerMonth : Money
  depositAgreed : Money
  billingDay : Option ℤ
  status : LeaseStatus
deriving DecidableEq, Repr

/-- JavaScript `x || d` on an optional number: a missing value and the falsy
`0` both fall back to the default. -/
def jsOrDefault (x : Option ℤ) (d : ℤ) : ℤ :=
  match x with
  | none => d
  | some v => if v = 0 then d else v

/-- An invoice as created by monthly generation (`Invoice.create` in the
generate-monthly route and the cron service): period and date fields are
calendar dates, `lateFee`/`paidAmount`/`status` come from the schema
defaults. -/
structure GenInvoice where
  lease : ℕ
  periodFrom : Ymd
  periodTo : Ymd
  issueDate : Ymd
  dueDate : Ymd
  baseAmount : Money
  lateFee : Money
  totalAmount : Money
  paidAmount : Money
  status : BillStatus
deriving DecidableEq, Repr

/-- The duplicate check `Invoice.findOne({lease, periodFrom, periodTo})`. -/
def hasInvoiceFor (store : List GenInvoice) (leaseId : ℕ) (fd ld : Ymd) :
    Bool :=
  store.any fun i => i.lease == leaseId && i.periodFrom == fd && i.periodTo == ld

/-- The invoice document created for a lease:
`baseAmount = totalAmount = lease.rentPerMonth`, with schema defaults
`lateFee = 0`, `paidAmount = 0`, `status = unpaid`. -/
def newMonthlyInvoice (l : Lease) (fd ld issue due : Ymd) : GenInvoice :=
  ⟨l.id, fd, ld, issue, due, l.rentPerMonth, 0, l.rentPerMonth, 0, .unpaid⟩

/-- The generation loop shared by the route and the cron service: iterate
the active leases, skip a lease when an invoice for (lease, period) already
exists, otherwise create one.  Returns (created invoices, new store). -/
def generateFor (fd ld issue : Ymd) (due : Lease → Ymd) :
    List Lease → List GenInvoice → List GenInvoice × List GenInvoice
  | [], store => ([], store)
  | l :: ls, store =>
    if l.status = .active then
      if hasInvoiceFor store l.id fd ld then generateFor fd ld issue due ls store
      else
        let inv := newMonthlyInvoice l fd ld issue (due l)
        let r := generateFor fd ld issue due ls (store ++ [inv])
        (inv :: r.1, r.2)
    else generateFor fd ld issue due ls store

/-- `POST /api/invoices/generate-monthly` (`src/routes/invoiceRoutes.js`).
`today` is given as its year / 0-indexed month / day.  The route sets
`month = today.getMonth() + 1` and `dueDate = new Date(year, month,
lease.billingDay || 1)`. -/
def generateMonthly (todayY todayM todayD : ℤ) (leases : List Lease)
    (store : List GenInvoice) : List GenInvoice × List GenInvoice :=
  generateFor (mkDate todayY todayM 1) (mkDate todayY (todayM + 1) 0)
    ⟨todayY, todayM, todayD⟩
    (fun l => mkDate todayY (todayM + 1) (jsOrDefault l.billingDay 1))
    leases store

/-- The scheduled generation in `src/services/invoiceCronService.js`: same
loop, but `month = today.getMonth()` and `dueDate = new Date(year, month,
lease.billingDay || 1)`. -/
def generateMonthlyCron (todayY todayM todayD : ℤ) (leases : List Lease)
    (store : List GenInvoice) : List GenInvoice × List GenInvoice :=
  generateFor (mkDate todayY todayM 1) (mkDate todayY (todayM + 1) 0)
    ⟨todayY, todayM, todayD⟩
    (fun l => mkDate todayY todayM (jsOrDefault l.billingDay 1))
    leases store

/-- The uniqueness key of the invoice store. -/
def invoiceKey (i : GenInvoice) : ℕ × Ymd × Ymd := (i.lease, i.periodFrom, i.periodTo)

/-- At most one invoice per (lease, periodFrom, periodTo). -/
def keyUnique (store : List GenInvoice) : Prop :=
  store.Pairwise fun a b => invoiceKey a ≠ invoiceKey b

/-- The C3 scenario lease: `rentPerMonth = 5000`, `billingDay = 5`,
active. -/
def marchLease : Lease := ⟨1, 1, 0, none, 5000, 1000, some 5, .active⟩

/-- `roomSchema.status` enum (`Room` model). -/
inductive RoomStatus where
  | vacant
  | occupied
  | partially_occupied
  | maintenance
deriving DecidableEq, Repr

/-- MongoDB `endDate: {$gte: x}` on a lease document: a document without
the field never satisfies the comparison. -/
def endDateGte (l : Lease) (x : ℤ) : Bool :=
  match l.endDate with
  | some e => decide (x ≤ e)
  | none => false

/-- MongoDB `endDate: {$lte: x}` on a lease document. -/
def endDateLte (l : Lease) (x : ℤ) : Bool :=
  match l.endDate with
  | some e => decide (e ≤ x)
  | none => false

/-- The overlap query of `POST /api/leases` (`src/routes/leaseRoutes.js`):
an existing lease on the room with status upcoming/active matches when —
for a request with an `endDate` — the `$or` of
`{startDate <= S, endDate >= S}`, `{startDate <= E, endDate >= E}`,
`{startDate >= S, endDate <= E}` holds, and — for a request without one —
just `startDate <= S` holds. -/
def overlapQueryMatches (roomId : ℕ) (startDate : ℤ) (endDate : Option ℤ)
    (l : Lease) : Bool :=
  l.room == roomId &&
    (l.status == .upcoming || l.status == .active) &&
    (match endDate with
     | some e =>
        (decide (l.startDate ≤ startDate) && endDateGte l startDate) ||
        (decide (l.startDate ≤ e) && endDateGte l e) ||
        (decide (startDate ≤ l.startDate) && endDateLte l e)
     | none => decide (l.startDate ≤ startDate))

/-- Outcome of `POST /api/leases`. -/
inductive CreateLeaseResult where
  | invalidInput
  | conflictOccupied
  | conflictOverlap
  | created
deriving DecidableEq, Repr

/-- `POST /api/leases` after the tenant/room lookups: validates
`rentPerMonth > 0` and `depositAgreed` (JavaScript `!depositAgreed` also
rejects the falsy `0`), rejects an occupied room, rejects when the overlap
query matches an existing lease, otherwise appends the new lease (schema
default status `active`). -/
def createLease (newId roomId : ℕ) (roomStatus : RoomStatus)
    (leases : List Lease) (startDate : ℤ) (endDate : Option ℤ)
    (rentPerMonth depositAgreed : Money) (billingDay : Option ℤ) :
    CreateLeaseResult × List Lease :=
  if rentPerMonth ≤ 0 then (.invalidInput, leases)
  else if depositAgreed ≤ 0 then (.invalidInput, leases)
  else if roomStatus = .occupied then (.conflictOccupied, leases)
  else if leases.any (overlapQueryMatches roomId startDate endDate) then
    (.conflictOverlap, leases)
  else
    (.created,
      leases ++ [⟨newId, roomId, startDate, endDate, rentPerMonth,
        depositAgreed, billingDay, .active⟩])

/-- Modelled from the spec: a missing `endDate` is unbounded, and the
intervals [a1,b1) and [a2,b2) overlap iff `a1 ≤ b2` and `a2 ≤ b1`. -/
def specOverlap (a1 : ℤ) (b1 : Option ℤ) (a2 : ℤ) (b2 : Option ℤ) : Prop :=
  (match b2 with
   | some b => a1 ≤ b
   | none => True) ∧
  (match b1 with
   | some b => a2 ≤ b
   | none => True)

/-- Existing bounded active lease on room 3 over [10, 20]. -/
def boundedLeaseC8 : Lease := ⟨7, 3, 10, some 20, 100, 50, some 1, .active⟩

/-- The fields of `lightBillSchema` (`src/models/LightBill.js`).  Dates are
timestamps in milliseconds. -/
structure LightBill where
  room : ℕ
  tenant : ℕ
  lease : ℕ
  periodFrom : ℤ
  periodTo : ℤ
  unitsConsumed : Money
  ratePerUnit : Money
  fixedCharge : Money
  tax : Money
  totalAmount : Money
  paidAmount : Money
  issueDate : ℤ
  dueDate : ℤ
  status : BillStatus
deriving DecidableEq, Repr

/-- `POST /api/light-bills` (`src/routes/lightBillRoutes.js`) after the
reference auto-resolution and existence lookups: validates
`periodFrom < periodTo`, `unitsConsumed > 0`, `ratePerUnit > 0`, rejects a
duplicate (room, tenant, lease, periodFrom, periodTo) bill, then creates
the bill with `totalAmount = unitsConsumed * ratePerUnit + fixedCharge +
tax` and schema defaults `paidAmount = 0`, `status = unpaid`. -/
def createLightBill (room tenant lease : ℕ) (periodFrom periodTo : ℤ)
    (unitsConsumed ratePerUnit fixedCharge tax : Money)
    (issueDate dueDate : ℤ) (bills : List LightBill) :
    Option LightBill × List LightBill :=
  if periodTo ≤ periodFrom then (none, bills)
  else if unitsConsumed ≤ 0 then (none, bills)
  else if ratePerUnit ≤ 0 then (none, bills)
  else if bills.any fun b => b.room == room && b.tenant == tenant &&
      b.lease == lease && b.periodFrom == periodFrom &&
      b.periodTo == periodTo then (none, bills)
  else
    let bill : LightBill :=
      ⟨room, tenant, lease, periodFrom, periodTo, unitsConsumed, ratePerUnit,
        fixedCharge, tax, unitsConsumed * ratePerUnit + fixedCharge + tax, 0,
        issueDate, dueDate, .unpaid⟩
    (some bill, bills ++ [bill])

/-- `POST /api/light-bills/:id/pay`: rejects a non-positive amount and a
missing payment date; rejects when `paidAmount + amount` exceeds
`totalAmount`; otherwise adds the amount to `paidAmount` and sets status
`paid` when `paidAmount >= totalAmount`, else `partially_paid` when
`paidAmount > 0` (no `Payment` record is written for light bills). -/
def payLightBill (amount : Money) (hasDate : Bool) (bill : LightBill) :
    LightBill × Option PayError :=
  if amount ≤ 0 then (bill, some .invalidAmount)
  else if hasDate = false then (bill, some .invalidAmount)
  else
    let newPaidAmount := bill.paidAmount + amount
    if bill.totalAmount < newPaidAmount then (bill, some .conflict)
    else
      let status :=
        if bill.totalAmount ≤ newPaidAmount then BillStatus.paid
        else if 0 < newPaidAmount then BillStatus.partially_paid
        else bill.status
      ({ bill with paidAmount := newPaidAmount, status := status }, none)

/-- The optional fields `PUT /api/light-bills/:id` reads from the request
body (besides `notes`, which touches nothing modelled here). -/
structure LightBillUpdate where
  periodFrom : Option ℤ
  periodTo : Option ℤ
  unitsConsumed : Option Money
  ratePerUnit : Option Money
  fixedCharge : Option Money
  tax : Option Money
  issueDate : Option ℤ
  dueDate : Option ℤ
deriving DecidableEq, Repr

/-- `PUT /api/light-bills/:id`: re-validates provided date pairs and
numbers, re-runs the duplicate-period check (`dupExists` stands for its
outcome against the other stored bills) when a period field is provided,
then merges the provided fields and recomputes
`totalAmount = units * rate + fixed + tax` from the merged values whenever
any of the four amount fields was provided.  `status` and `paidAmount` are
never touched.  The `Bool` reports whether the bill was written. -/
def updateLightBill (u : LightBillUpdate) (dupExists : Bool)
    (bill : LightBill) : LightBill × Bool :=
  let badPeriod :=
    match u.periodFrom, u.periodTo with
    | some pf, some pt => decide (pt ≤ pf)
    | _, _ => false
  let badDates :=
    match u.issueDate, u.dueDate with
    | some i, some d => decide (d ≤ i)
    | _, _ => false
  let badUnits :=
    match u.unitsConsumed with
    | some x => decide (x ≤ 0)
    | none => false
  let badRate :=
    match u.ratePerUnit with
    | some x => decide (x ≤ 0)
    | none => false
  let periodTouched := u.periodFrom.isSome || u.periodTo.isSome
  if badPeriod || badDates || badUnits || badRate ||
      (periodTouched && dupExists) then (bill, false)
  else
    let units := u.unitsConsumed.getD bill.unitsConsumed
    let rate := u.ratePerUnit.getD bill.ratePerUnit
    let fixed := u.fixedCharge.getD bill.fixedCharge
    let taxes := u.tax.getD bill.tax
    let amountTouched := u.unitsConsumed.isSome || u.ratePerUnit.isSome ||
      u.fixedCharge.isSome || u.tax.isSome
    ({ bill with
        periodFrom := u.periodFrom.getD bill.periodFrom,
        periodTo := u.periodTo.getD bill.periodTo,
        unitsConsumed := units,
        ratePerUnit := rate,
        fixedCharge := fixed,
        tax := taxes,
        issueDate := u.issueDate.getD bill.issueDate,
        dueDate := u.dueDate.getD bill.dueDate,
        totalAmount :=
          if amountTouched then units * rate + fixed + taxes
          else bill.totalAmount },
      true)

/-- An operation the system can apply to a stored light bill (the delete
route removes the record and is not a mutation of it). -/
inductive LightBillOp where
  | pay (amount : Money) (hasDate : Bool)
  | update (u : LightBillUpdate) (dupExists : Bool)

/-- Effect of one operation on the bill (a rejected request leaves it
untouched). -/
def lightBillStep (op : LightBillOp) (bill : LightBill) : LightBill :=
  match op with
  | .pay amount hasDate => (payLightBill amount hasDate bill).1
  | .update u dup => (updateLightBill u dup bill).1

/-- An operation sequence applied left to right. -/
def lightBillRun (ops : List LightBillOp) (bill : LightBill) : LightBill :=
  ops.foldl (fun b op => lightBillStep op b) bill

/-- A fully paid light bill: `unitsConsumed = 100`, `ratePerUnit = 8`,
`fixedCharge = 50`, `tax = 20`, so `totalAmount = 870`, all of it paid. -/
def paidBillC9 : LightBill :=
  ⟨1, 1, 1, 0, 10, 100, 8, 50, 20, 870, 870, 0, 5, .paid⟩

/-- A consistent partially paid invoice with a stored late fee:
`baseAmount = 1000`, `lateFee = 50`, `totalAmount = 1050`,
`paidAmount = 1020`. -/
def partiallyPaidInvoiceC9 : Invoice := ⟨0, 1000, 50, 1050, 1020, 0, .partially_paid⟩

/-- A config under which the C9 invoice accrues no fee (grace period not
yet over). -/
def bigGraceConfigC9 : LateFeeConfig := ⟨.per_day, 100, 5, 1⟩

/-- An update request that only lowers `unitsConsumed` to 10. -/
def lowerUnitsUpdateC9 : LightBillUpdate :=
  ⟨none, none, some 10, none, none, none, none, none⟩

end RoomRent

namespace RoomRent

/-- C1: a payment that would exceed `totalAmount` is rejected with the
overpayment conflict, and the invoice (its `paidAmount` and `status` in
particular) and the payment ledger are unchanged. -/
theorem payInvoice_overpay_conflict (amount : Money) (inv : Invoice)
    (payments : List Payment) (hpos : 0 < amount)
    (hover : inv.totalAmount < inv.paidAmount + amount) :
    payInvoice amount inv payments = ⟨inv, payments, some .conflict⟩ := by
  have h1 : ¬ amount ≤ 0 := not_le.mpr hpos
  simp only [payInvoice, if_neg h1, if_pos hover]

/-- Witness for C1 at a concrete invoice and amount. -/
theorem payInvoice_overpay_conflict_witness :
    (0 : Money) < 700 ∧
      (⟨0, 1000, 0, 1000, 400, 0, .partially_paid⟩ : Invoice).totalAmount <
        (⟨0, 1000, 0, 1000, 400, 0, .partially_paid⟩ : Invoice).paidAmount + 700 ∧
      payInvoice 700 ⟨0, 1000, 0, 1000, 400, 0, .partially_paid⟩ [] =
        ⟨⟨0, 1000, 0, 1000, 400, 0, .partially_paid⟩, [], some .conflict⟩ :=
  ⟨by norm_num, by norm_num [Invoice.paidAmount, Invoice.totalAmount],
    payInvoice_overpay_conflict 700 _ [] (by norm_num) (by norm_num)⟩

/-- `floor` of ten days in milliseconds divided by one day. -/
theorem overdue_ten_days_fdiv : (864000000 : ℤ).fdiv 86400000 = 10 := by
  decide

/-- `floor` of four days in milliseconds divided by one day. -/
theorem four_days_fdiv : (345600000 : ℤ).fdiv 86400000 = 4 := by
  decide

/-- The invoice produced by one recalculation step, as a case split on
whether the recomputed fee differs from the stored one. -/
theorem recalcInvoice_fst (cfg : LateFeeConfig) (todayMs : ℤ) (inv : Invoice)
    (hst : inv.status = .unpaid ∨ inv.status = .partially_paid) :
    (recalcInvoice cfg todayMs inv).1 =
      if computeLateFee cfg todayMs inv = inv.lateFee then inv
      else { inv with
               lateFee := computeLateFee cfg todayMs inv,
               totalAmount := inv.baseAmount + computeLateFee cfg todayMs inv } := by
  by_cases hc : computeLateFee cfg todayMs inv = inv.lateFee
  · simp only [recalcInvoice, if_pos hst, if_neg (not_not_intro hc), if_pos hc]
  · simp only [recalcInvoice, if_pos hst, if_pos hc, if_neg hc]

/-- C4: for an invoice processed by the recalculation (status `unpaid` or
`partially_paid`), assuming the stored total was consistent
(`totalAmount = baseAmount + lateFee`), the resulting fee equals the
specified formula (`(diffDays - graceDays) * perDayAmount` past the grace
period for a per-day config, `baseAmount * percentage / 100` for a
percentage config, `0` otherwise, with
`diffDays = floor((now - dueDate) / 1 day)`), and afterwards
`totalAmount = baseAmount + lateFee`. -/
theorem recalcInvoice_lateFee_correct (cfg : LateFeeConfig) (todayMs : ℤ)
    (inv : Invoice)
    (hst : inv.status = .unpaid ∨ inv.status = .partially_paid)
    (htot : inv.totalAmount = inv.baseAmount + inv.lateFee) :
    ((recalcInvoice cfg todayMs inv).1).lateFee =
      (if cfg.graceDays < (((todayMs - inv.dueDate).fdiv 86400000 : ℤ) : Money)
       then
         match cfg.type with
         | .per_day =>
             ((((todayMs - inv.dueDate).fdiv 86400000 : ℤ) : Money) -
               cfg.graceDays) * cfg.perDayAmount
         | .percentage => inv.baseAmount * cfg.percentage / 100
       else 0) ∧
    ((recalcInvoice cfg todayMs inv).1).totalAmount =
      ((recalcInvoice cfg todayMs inv).1).baseAmount +
        ((recalcInvoice cfg todayMs inv).1).lateFee := by
  have hcf : computeLateFee cfg todayMs inv =
      (if cfg.graceDays < (((todayMs - inv.dueDate).fdiv 86400000 : ℤ) : Money)
       then
         match cfg.type with
         | .per_day =>
             ((((todayMs - inv.dueDate).fdiv 86400000 : ℤ) : Money) -
               cfg.graceDays) * cfg.perDayAmount
         | .percentage => inv.baseAmount * cfg.percentage / 100
       else 0) := rfl
  rw [recalcInvoice_fst cfg todayMs inv hst]
  by_cases hc : computeLateFee cfg todayMs inv = inv.lateFee
  · rw [if_pos hc]
    exact ⟨hc ▸ hcf, htot⟩
  · rw [if_neg hc]
    exact ⟨hcf, rfl⟩

/-- Witness for C4: the spec scenario — an invoice 10 days overdue,
`graceDays = 3`, `perDayAmount = 5`, `baseAmount = 5000` ends with
`lateFee = 35` and `totalAmount = 5035`. -/
theorem recalcInvoice_lateFee_correct_witness :
    (lateInvoiceC5.status = .unpaid ∨ lateInvoiceC5.status = .partially_paid) ∧
    lateInvoiceC5.totalAmount = lateInvoiceC5.baseAmount + lateInvoiceC5.lateFee ∧
    (((recalcInvoice perDayConfigC5 864000000 lateInvoiceC5).1).lateFee =
      (if perDayConfigC5.graceDays <
          (((864000000 - lateInvoiceC5.dueDate).fdiv 86400000 : ℤ) : Money)
       then
         match perDayConfigC5.type with
         | .per_day =>
             ((((864000000 - lateInvoiceC5.dueDate).fdiv 86400000 : ℤ) : Money) -
               perDayConfigC5.graceDays) * perDayConfigC5.perDayAmount
         | .percentage => lateInvoiceC5.baseAmount * perDayConfigC5.percentage / 100
       else 0) ∧
      ((recalcInvoice perDayConfigC5 864000000 lateInvoiceC5).1).totalAmount =
        ((recalcInvoice perDayConfigC5 864000000 lateInvoiceC5).1).baseAmount +
          ((recalcInvoice perDayConfigC5 864000000 lateInvoiceC5).1).lateFee) ∧
    ((recalcInvoice perDayConfigC5 864000000 lateInvoiceC5).1).lateFee = 35 ∧
    ((recalcInvoice perDayConfigC5 864000000 lateInvoiceC5).1).totalAmount = 5035 :=
  ⟨Or.inl rfl, by norm_num [lateInvoiceC5],
    recalcInvoice_lateFee_correct perDayConfigC5 864000000 lateInvoiceC5
      (Or.inl rfl) (by norm_num [lateInvoiceC5]),
    by norm_num [recalcInvoice, computeLateFee, lateInvoiceC5, perDayConfigC5,
      overdue_ten_days_fdiv],
    by norm_num [recalcInvoice, computeLateFee, lateInvoiceC5, perDayConfigC5,
      overdue_ten_days_fdiv]⟩

/-- C5 (code bug): on an unpaid invoice 10 days past due, the live
recalculation route leaves the status `unpaid` even though it raises the
fee, while the older variant in the repository re-derives it to `overdue`
exactly as the spec describes. -/
theorem recalc_does_not_rederive_status :
    ((recalcInvoice perDayConfigC5 864000000 lateInvoiceC5).1).status = .unpaid ∧
    ((recalcInvoice perDayConfigC5 864000000 lateInvoiceC5).1).lateFee = 35 ∧
    (recalcInvoiceVariant perDayConfigC5 864000000 lateInvoiceC5).status =
      .overdue := by
  norm_num [recalcInvoice, recalcInvoiceVariant, computeLateFee, lateInvoiceC5,
    perDayConfigC5, overdue_ten_days_fdiv]

/-- One recalculation step is idempotent for a fixed clock and config: the
second application writes nothing. -/
theorem recalcInvoice_idem (cfg : LateFeeConfig) (todayMs : ℤ) (inv : Invoice) :
    recalcInvoice cfg todayMs ((recalcInvoice cfg todayMs inv).1) =
      ((recalcInvoice cfg todayMs inv).1, false) := by
  by_cases hst : inv.status = .unpaid ∨ inv.status = .partially_paid
  · rw [recalcInvoice_fst cfg todayMs inv hst]
    by_cases hc : computeLateFee cfg todayMs inv = inv.lateFee
    · rw [if_pos hc]
      simp only [recalcInvoice, if_pos hst, if_neg (not_not_intro hc)]
    · rw [if_neg hc]
      have hst' : (({ inv with
          lateFee := computeLateFee cfg todayMs inv,
          totalAmount := inv.baseAmount + computeLateFee cfg todayMs inv } :
            Invoice)).status = .unpaid ∨
          (({ inv with
          lateFee := computeLateFee cfg todayMs inv,
          totalAmount := inv.baseAmount + computeLateFee cfg todayMs inv } :
            Invoice)).status = .partially_paid := hst
      have hcf : computeLateFee cfg todayMs
          ({ inv with
             lateFee := computeLateFee cfg todayMs inv,
             totalAmount := inv.baseAmount + computeLateFee cfg todayMs inv } :
               Invoice) =
          ({ inv with
             lateFee := computeLateFee cfg todayMs inv,
             totalAmount := inv.baseAmount + computeLateFee cfg todayMs inv } :
               Invoice).lateFee := rfl
      simp only [recalcInvoice, if_pos hst', if_neg (not_not_intro hcf)]
  · have h1 : recalcInvoice cfg todayMs inv = (inv, false) := by
      simp only [recalcInvoice, if_neg hst]
    rw [h1]
    exact h1

/-- C7: the late-fee recalculation is idempotent for a fixed clock value —
run a second time on its own output (same settings, same `today`, no
intervening payments) it writes no invoice and reports an updated count of
zero. -/
theorem recalculateLateFees_idempotent (cfg : LateFeeConfig) (todayMs : ℤ)
    (invs : List Invoice) :
    recalculateLateFees cfg todayMs (recalculateLateFees cfg todayMs invs).1 =
      ((recalculateLateFees cfg todayMs invs).1, 0) := by
  induction invs with
  | nil => rfl
  | cons inv rest ih =>
    simp only [recalculateLateFees, recalcInvoice_idem cfg todayMs inv, ih]
    rfl

/-- C6 counterexample: two operation sequences from the same fresh invoice
reach identical `(paidAmount, totalAmount, now, dueDate)` — both observed at
clock `345600000` — yet end with different statuses (`partially_paid`
vs. `paid`), because the live recalculation rewrites `totalAmount` without
re-deriving status. -/
theorem status_not_pure_function_of_state :
    (invRun [.recalc cfgC6A 345600000, .pay 1000, .recalc cfgC6B 345600000]
        invC6).paidAmount =
      (invRun [.pay 1000] invC6).paidAmount ∧
    (invRun [.recalc cfgC6A 345600000, .pay 1000, .recalc cfgC6B 345600000]
        invC6).totalAmount =
      (invRun [.pay 1000] invC6).totalAmount ∧
    (invRun [.recalc cfgC6A 345600000, .pay 1000, .recalc cfgC6B 345600000]
        invC6).dueDate =
      (invRun [.pay 1000] invC6).dueDate ∧
    (invRun [.recalc cfgC6A 345600000, .pay 1000, .recalc cfgC6B 345600000]
        invC6).status = .partially_paid ∧
    (invRun [.pay 1000] invC6).status = .paid := by
  norm_num [invRun, invStep, payInvoice, recalcInvoice, computeLateFee, invC6,
    cfgC6A, cfgC6B, four_days_fdiv]

/-- A successful or rejected payment keeps the stored status equal to the
pure `(paidAmount, totalAmount)` status function. -/
theorem payStep_status_pure (a : Money) (inv : Invoice)
    (h : inv.status = derivedStatusSpec inv.paidAmount inv.totalAmount) :
    (invStep (.pay a) inv).status =
      derivedStatusSpec (invStep (.pay a) inv).paidAmount
        (invStep (.pay a) inv).totalAmount := by
  by_cases ha : a ≤ 0
  · simpa only [invStep, payInvoice, if_pos ha] using h
  · by_cases hover : inv.totalAmount < inv.paidAmount + a
    · simpa only [invStep, payInvoice, if_neg ha, if_pos hover] using h
    · simp only [invStep, payInvoice, if_neg ha, if_neg hover]
      by_cases hp : inv.totalAmount ≤ inv.paidAmount + a
      · simp only [if_pos hp, derivedStatusSpec]
      · by_cases hz : 0 < inv.paidAmount + a
        · simp only [if_neg hp, if_pos hz, derivedStatusSpec]
        · simp only [if_neg hp, if_neg hz, derivedStatusSpec, h]
          have hlt : ¬ inv.totalAmount ≤ inv.paidAmount := by
            intro hle
            exact hp (by linarith [not_le.mp ha])
          have hz0 : ¬ (0 : Money) < inv.paidAmount := by
            intro hgt
            exact hz (by linarith [not_le.mp ha])
          rw [if_neg hlt, if_neg hz0]

/-- C6 amended: along any sequence consisting only of `payInvoice` calls the
stored status is the pure function of the current
`(paidAmount, totalAmount)` pair — `paid` when fully paid,
`partially_paid` when partly paid, `unpaid` otherwise. -/
theorem payOnly_status_pure (amts : List Money) (inv : Invoice)
    (h : inv.status = derivedStatusSpec inv.paidAmount inv.totalAmount) :
    (invRun (amts.map .pay) inv).status =
      derivedStatusSpec (invRun (amts.map .pay) inv).paidAmount
        (invRun (amts.map .pay) inv).totalAmount := by
  induction amts generalizing inv with
  | nil => exact h
  | cons a rest ih =>
    have h1 := payStep_status_pure a inv h
    simpa only [invRun, List.map_cons, List.foldl_cons] using
      ih (invStep (.pay a) inv) h1

/-- Witness for C6's amended statement on a concrete invoice and payment
sequence. -/
theorem payOnly_status_pure_witness :
    invC6.status = derivedStatusSpec invC6.paidAmount invC6.totalAmount ∧
    (invRun ([400, 600].map .pay) invC6).status =
      derivedStatusSpec (invRun ([400, 600].map .pay) invC6).paidAmount
        (invRun ([400, 600].map .pay) invC6).totalAmount :=
  ⟨by norm_num [invC6, derivedStatusSpec],
    payOnly_status_pure [400, 600] invC6 (by norm_num [invC6, derivedStatusSpec])⟩

/-- The store after a generation run is the initial store with the created
invoices appended. -/
theorem generateFor_store (fd ld issue : Ymd) (due : Lease → Ymd)
    (ls : List Lease) (store : List GenInvoice) :
    (generateFor fd ld issue due ls store).2 =
      store ++ (generateFor fd ld issue due ls store).1 := by
  induction ls generalizing store with
  | nil => simp [generateFor]
  | cons l ls ih =>
    by_cases hact : l.status = .active
    · by_cases hhas : hasInvoiceFor store l.id fd ld = true
      · simp only [generateFor, if_pos hact, if_pos hhas]
        exact ih store
      · simp only [generateFor, if_pos hact, if_neg hhas]
        rw [ih (store ++ [newMonthlyInvoice l fd ld issue (due l)])]
        simp
    · simp only [generateFor, if_neg hact]
      exact ih store

/-- The duplicate check stays positive when the store grows. -/
theorem hasInvoiceFor_append (store more : List GenInvoice) (leaseId : ℕ)
    (fd ld : Ymd) (h : hasInvoiceFor store leaseId fd ld = true) :
    hasInvoiceFor (store ++ more) leaseId fd ld = true := by
  simp only [hasInvoiceFor, List.any_append, Bool.or_eq_true]
  exact Or.inl h

/-- After a generation run every active lease in the processed list has an
invoice for the period in the store. -/
theorem generateFor_covers (fd ld issue : Ymd) (due : Lease → Ymd)
    (ls : List Lease) :
    ∀ (store : List GenInvoice) (l : Lease), l ∈ ls → l.status = .active →
      hasInvoiceFor (generateFor fd ld issue due ls store).2 l.id fd ld = true := by
  induction ls with
  | nil =>
    intro store l hl
    cases hl
  | cons l0 ls ih =>
    intro store l hl hact
    by_cases hact0 : l0.status = .active
    · by_cases hhas : hasInvoiceFor store l0.id fd ld = true
      · simp only [generateFor, if_pos hact0, if_pos hhas]
        rcases List.mem_cons.mp hl with rfl | hmem
        · rw [generateFor_store]
          exact hasInvoiceFor_append _ _ _ _ _ hhas
        · exact ih store l hmem hact
      · simp only [generateFor, if_pos hact0, if_neg hhas]
        rcases List.mem_cons.mp hl with rfl | hmem
        · rw [generateFor_store]
          apply hasInvoiceFor_append
          simp [hasInvoiceFor, newMonthlyInvoice]
        · exact ih (store ++ [newMonthlyInvoice l0 fd ld issue (due l0)]) l hmem hact
    · simp only [generateFor, if_neg hact0]
      rcases List.mem_cons.mp hl with rfl | hmem
      · exact absurd hact hact0
      · exact ih store l hmem hact

/-- When every active lease already has an invoice for the period, a
generation run creates nothing and leaves the store unchanged. -/
theorem generateFor_skips (fd ld issue : Ymd) (due : Lease → Ymd)
    (ls : List Lease) :
    ∀ store : List GenInvoice,
      (∀ l ∈ ls, l.status = .active → hasInvoiceFor store l.id fd ld = true) →
      generateFor fd ld issue due ls store = ([], store) := by
  induction ls with
  | nil =>
    intro store _
    rfl
  | cons l0 ls ih =>
    intro store h
    by_cases hact0 : l0.status = .active
    · have hhas := h l0 (List.mem_cons_self l0 ls) hact0
      simp only [generateFor, if_pos hact0, if_pos hhas]
      exact ih store fun l hl ha => h l (List.mem_cons_of_mem l0 hl) ha
    · simp only [generateFor, if_neg hact0]
      exact ih store fun l hl ha => h l (List.mem_cons_of_mem l0 hl) ha

/-- A generation run preserves per-(lease, period) uniqueness of the
store: an invoice is only appended when the duplicate check is negative. -/
theorem generateFor_keyUnique (fd ld issue : Ymd) (due : Lease → Ymd)
    (ls : List Lease) :
    ∀ store : List GenInvoice, keyUnique store →
      keyUnique (generateFor fd ld issue due ls store).2 := by
  induction ls with
  | nil =>
    intro store h
    exact h
  | cons l0 ls ih =>
    intro store h
    by_cases hact0 : l0.status = .active
    · by_cases hhas : hasInvoiceFor store l0.id fd ld = true
      · simp only [generateFor, if_pos hact0, if_pos hhas]
        exact ih store h
      · simp only [generateFor, if_pos hact0, if_neg hhas]
        apply ih
        unfold keyUnique at h ⊢
        rw [List.pairwise_append]
        refine ⟨h, List.pairwise_singleton _ _, ?_⟩
        intro a ha b hb
        have hb' : b = newMonthlyInvoice l0 fd ld issue (due l0) := by
          simpa using hb
        subst hb'
        intro hkey
        apply hhas
        have hcomp : a.lease = l0.id ∧ a.periodFrom = fd ∧ a.periodTo = ld := by
          simpa [invoiceKey, newMonthlyInvoice, Prod.ext_iff] using hkey
        simp only [hasInvoiceFor, List.any_eq_true]
        exact ⟨a, ha, by simp [hcomp.1, hcomp.2.1, hcomp.2.2]⟩
    · simp only [generateFor, if_neg hact0]
      exact ih store h

/-- C2: generation preserves at-most-one-invoice-per-(lease, period), and a
second run for the same month on the first run's output creates no invoice
and leaves the store unchanged. -/
theorem generateMonthly_unique_and_idempotent (todayY todayM todayD : ℤ)
    (leases : List Lease) (store : List GenInvoice) (h : keyUnique store) :
    keyUnique (generateMonthly todayY todayM todayD leases store).2 ∧
    generateMonthly todayY todayM todayD leases
        (generateMonthly todayY todayM todayD leases store).2 =
      ([], (generateMonthly todayY todayM todayD leases store).2) := by
  constructor
  · exact generateFor_keyUnique _ _ _ _ leases store h
  · exact generateFor_skips _ _ _ _ leases _
      fun l hl ha => generateFor_covers _ _ _ _ leases store l hl ha

/-- Witness for C2 on a concrete lease list and empty store. -/
theorem generateMonthly_unique_and_idempotent_witness :
    keyUnique [] ∧
    (keyUnique (generateMonthly 2025 2 15 [marchLease] []).2 ∧
     generateMonthly 2025 2 15 [marchLease]
         (generateMonthly 2025 2 15 [marchLease] []).2 =
       ([], (generateMonthly 2025 2 15 [marchLease] []).2)) :=
  ⟨List.Pairwise.nil,
    generateMonthly_unique_and_idempotent 2025 2 15 [marchLease] []
      List.Pairwise.nil⟩

/-- Small `Int.fdiv`/`Int.emod` evaluations used to run the generators. -/
theorem fdiv_two_twelve : (2 : ℤ).fdiv 12 = 0 := by decide

/-- `2 mod 12`. -/
theorem emod_two_twelve : (2 : ℤ).emod 12 = 2 := by decide

/-- `3 / 12` rounded down. -/
theorem fdiv_three_twelve : (3 : ℤ).fdiv 12 = 0 := by decide

/-- `3 mod 12`. -/
theorem emod_three_twelve : (3 : ℤ).emod 12 = 3 := by decide

/-- C3 (code bug): generating invoices in March 2025 (today = 2025-03-15)
for the scenario lease (`rentPerMonth = 5000`, `billingDay = 5`) via the
API route yields `baseAmount = totalAmount = 5000` and `lateFee = 0` as
claimed, but `dueDate` = April 5 (`new Date(year, getMonth() + 1, 5)`),
one month past the claimed March 5; the cron generator computes March 5
for the same input. -/
theorem generateMonthly_dueDate_wrong_month :
    (generateMonthly 2025 2 15 [marchLease] []).1 =
      [⟨1, ⟨2025, 2, 1⟩, ⟨2025, 2, 31⟩, ⟨2025, 2, 15⟩, ⟨2025, 3, 5⟩,
        5000, 0, 5000, 0, .unpaid⟩] ∧
    (generateMonthlyCron 2025 2 15 [marchLease] []).1 =
      [⟨1, ⟨2025, 2, 1⟩, ⟨2025, 2, 31⟩, ⟨2025, 2, 15⟩, ⟨2025, 2, 5⟩,
        5000, 0, 5000, 0, .unpaid⟩] := by
  norm_num [generateMonthly, generateMonthlyCron, generateFor, hasInvoiceFor,
    newMonthlyInvoice, marchLease, mkDate, daysInMonth, isLeapYear, jsOrDefault,
    fdiv_two_twelve, emod_two_twelve, fdiv_three_twelve, emod_three_twelve]

/-- C8 counterexample: an open-ended lease request on room 3 starting at 5
overlaps the existing active lease [10, 20] under the spec's overlap
relation, yet the route creates it — with no requested `endDate` the query
only checks `startDate <= 5`, which the existing lease (start 10) fails. -/
theorem createLease_misses_overlap :
    (createLease 8 3 .vacant [boundedLeaseC8] 5 none 100 50 none).1 =
      .created ∧
    specOverlap 5 none 10 (some 20) := by
  constructor
  · norm_num [createLease, overlapQueryMatches, boundedLeaseC8]
    rfl
  · exact ⟨by norm_num, trivial⟩

/-- For well-ordered bounded intervals the route's three-way `$or` is the
standard inclusive overlap test. -/
theorem threeWay_or_iff_overlap (ls le a b : ℤ) (hl : ls ≤ le) (hab : a ≤ b) :
    ((ls ≤ a ∧ a ≤ le) ∨ (ls ≤ b ∧ b ≤ le) ∨ (a ≤ ls ∧ le ≤ b)) ↔
      (ls ≤ b ∧ a ≤ le) := by
  omega

/-- The implemented per-lease overlap test, described: for a bounded
request it requires the existing lease to be bounded and the closed
intervals to meet; for an unbounded request it only compares start
dates. -/
theorem overlapQueryMatches_iff (roomId : ℕ) (startDate : ℤ)
    (endDate : Option ℤ) (l : Lease)
    (hwf : ∀ e, l.endDate = some e → l.startDate ≤ e)
    (hreq : ∀ b, endDate = some b → startDate ≤ b) :
    overlapQueryMatches roomId startDate endDate l = true ↔
      (l.room = roomId ∧ (l.status = .upcoming ∨ l.status = .active) ∧
        (match endDate with
         | some b => ∃ e, l.endDate = some e ∧ l.startDate ≤ b ∧ startDate ≤ e
         | none => l.startDate ≤ startDate)) := by
  cases endDate with
  | none =>
    simp [overlapQueryMatches, Bool.and_eq_true, Bool.or_eq_true, beq_iff_eq,
      decide_eq_true_eq, and_assoc]
  | some b =>
    have hab := hreq b rfl
    cases hE : l.endDate with
    | none =>
      simp [overlapQueryMatches, endDateGte, endDateLte, hE]
    | some e =>
      have hle := hwf e hE
      simp only [overlapQueryMatches, endDateGte, endDateLte, hE,
        Bool.and_eq_true, Bool.or_eq_true, beq_iff_eq, decide_eq_true_eq,
        and_assoc, or_assoc]
      constructor
      · rintro ⟨hr, hs, hdisj⟩
        exact ⟨hr, hs, e, rfl,
          (threeWay_or_iff_overlap l.startDate e startDate b hle hab).mp hdisj⟩
      · rintro ⟨hr, hs, e', he', hov⟩
        obtain rfl : e = e' := by simpa using he'
        exact ⟨hr, hs,
          (threeWay_or_iff_overlap l.startDate e startDate b hle hab).mpr hov⟩

/-- C8 amended: with valid inputs and an unoccupied room, `createLease`
fails with the overlap conflict iff some existing upcoming/active lease on
the room matches the implemented test — for a bounded request, an existing
*bounded* lease whose closed interval meets the requested one
(`l.startDate ≤ endDate` and `startDate ≤ l.endDate`; open-ended existing
leases never match), and for an open-ended request, an existing lease with
`l.startDate ≤ startDate` — and on that failure the lease store is
unchanged. -/
theorem createLease_conflict_characterization (newId roomId : ℕ)
    (roomStatus : RoomStatus) (leases : List Lease) (startDate : ℤ)
    (endDate : Option ℤ) (rentPerMonth depositAgreed : Money)
    (billingDay : Option ℤ)
    (hrent : 0 < rentPerMonth) (hdep : 0 < depositAgreed)
    (hroom : roomStatus ≠ .occupied)
    (hwf : ∀ l ∈ leases, ∀ e, l.endDate = some e → l.startDate ≤ e)
    (hreq : ∀ b, endDate = some b → startDate ≤ b) :
    ((createLease newId roomId roomStatus leases startDate endDate
        rentPerMonth depositAgreed billingDay).1 = .conflictOverlap ↔
      ∃ l ∈ leases, l.room = roomId ∧
        (l.status = .upcoming ∨ l.status = .active) ∧
        (match endDate with
         | some b => ∃ e, l.endDate = some e ∧ l.startDate ≤ b ∧ startDate ≤ e
         | none => l.startDate ≤ startDate)) ∧
    ((createLease newId roomId roomStatus leases startDate endDate
        rentPerMonth depositAgreed billingDay).1 = .conflictOverlap →
      (createLease newId roomId roomStatus leases startDate endDate
        rentPerMonth depositAgreed billingDay).2 = leases) := by
  have h1 : ¬ rentPerMonth ≤ 0 := not_le.mpr hrent
  have h2 : ¬ depositAgreed ≤ 0 := not_le.mpr hdep
  have hiff : leases.any (overlapQueryMatches roomId startDate endDate) = true ↔
      ∃ l ∈ leases, l.room = roomId ∧
        (l.status = .upcoming ∨ l.status = .active) ∧
        (match endDate with
         | some b => ∃ e, l.endDate = some e ∧ l.startDate ≤ b ∧ startDate ≤ e
         | none => l.startDate ≤ startDate) := by
    rw [List.any_eq_true]
    constructor
    · rintro ⟨l, hl, hm⟩
      exact ⟨l, hl,
        (overlapQueryMatches_iff roomId startDate endDate l (hwf l hl) hreq).mp hm⟩
    · rintro ⟨l, hl, hd⟩
      exact ⟨l, hl,
        (overlapQueryMatches_iff roomId startDate endDate l (hwf l hl) hreq).mpr hd⟩
  unfold createLease
  rw [if_neg h1, if_neg h2, if_neg hroom]
  by_cases hany : leases.any (overlapQueryMatches roomId startDate endDate) = true
  · rw [if_pos hany]
    exact ⟨⟨fun _ => hiff.mp hany, fun _ => rfl⟩, fun _ => rfl⟩
  · rw [if_neg hany]
    refine ⟨⟨fun hc => absurd hc (by simp), fun hex => absurd (hiff.mpr hex) hany⟩,
      fun hc => absurd hc (by simp)⟩

/-- Witness for C8's amended statement: a bounded request [15, 25] against
the existing [10, 20] lease. -/
theorem createLease_conflict_characterization_witness :
    ((createLease 8 3 .vacant [boundedLeaseC8] 15 (some 25) 100 50
        none).1 = .conflictOverlap ↔
      ∃ l ∈ [boundedLeaseC8], l.room = 3 ∧
        (l.status = .upcoming ∨ l.status = .active) ∧
        (match (some 25 : Option ℤ) with
         | some b => ∃ e, l.endDate = some e ∧ l.startDate ≤ b ∧ (15 : ℤ) ≤ e
         | none => l.startDate ≤ 15)) ∧
    ((createLease 8 3 .vacant [boundedLeaseC8] 15 (some 25) 100 50
        none).1 = .conflictOverlap →
      (createLease 8 3 .vacant [boundedLeaseC8] 15 (some 25) 100 50
        none).2 = [boundedLeaseC8]) :=
  createLease_conflict_characterization 8 3 .vacant [boundedLeaseC8] 15
    (some 25) 100 50 none (by norm_num) (by norm_num) (by simp)
    (by
      intro l hl e he
      rw [List.mem_singleton] at hl
      subst hl
      have h20 : e = 20 := by
        have : (some 20 : Option ℤ) = some e := he
        simpa using this.symm
      subst h20
      norm_num [boundedLeaseC8])
    (by
      intro b hb
      have h25 : b = 25 := by
        simpa using hb.symm
      subst h25
      norm_num)

/-- C9 counterexample: updating a fully paid light bill's `unitsConsumed`
downward recomputes `totalAmount` (to 150, with `paidAmount` still 870),
and recalculating late fees for a partially paid invoice under a config
whose computed fee is below the stored one recomputes `totalAmount` (to
1000, with `paidAmount` still 1020) — both operations break
`paidAmount ≤ totalAmount` on states that satisfied it. -/
theorem recompute_breaks_paid_le_total :
    paidBillC9.paidAmount ≤ paidBillC9.totalAmount ∧
    (updateLightBill lowerUnitsUpdateC9 false paidBillC9).1.totalAmount <
      (updateLightBill lowerUnitsUpdateC9 false paidBillC9).1.paidAmount ∧
    partiallyPaidInvoiceC9.paidAmount ≤ partiallyPaidInvoiceC9.totalAmount ∧
    ((recalcInvoice bigGraceConfigC9 864000000
        partiallyPaidInvoiceC9).1).totalAmount <
      ((recalcInvoice bigGraceConfigC9 864000000
        partiallyPaidInvoiceC9).1).paidAmount := by
  norm_num [updateLightBill, lowerUnitsUpdateC9, paidBillC9, recalcInvoice,
    computeLateFee, bigGraceConfigC9, partiallyPaidInvoiceC9,
    overdue_ten_days_fdiv]

/-- Generation only ever appends invoices with `paidAmount = 0` and
`totalAmount = rentPerMonth`, so payment bounds hold on the whole store. -/
theorem generateFor_payment_bounds (fd ld issue : Ymd) (due : Lease → Ymd)
    (ls : List Lease) :
    ∀ store : List GenInvoice,
      (∀ i ∈ store, 0 ≤ i.paidAmount ∧ i.paidAmount ≤ i.totalAmount) →
      (∀ l ∈ ls, 0 ≤ l.rentPerMonth) →
      ∀ i ∈ (generateFor fd ld issue due ls store).2,
        0 ≤ i.paidAmount ∧ i.paidAmount ≤ i.totalAmount := by
  induction ls with
  | nil =>
    intro store hstore _ i hi
    exact hstore i hi
  | cons l0 ls ih =>
    intro store hstore hrent
    by_cases hact : l0.status = .active
    · by_cases hhas : hasInvoiceFor store l0.id fd ld = true
      · simp only [generateFor, if_pos hact, if_pos hhas]
        exact ih store hstore fun l hl => hrent l (List.mem_cons_of_mem _ hl)
      · simp only [generateFor, if_pos hact, if_neg hhas]
        refine ih (store ++ [newMonthlyInvoice l0 fd ld issue (due l0)]) ?_
          fun l hl => hrent l (List.mem_cons_of_mem _ hl)
        intro i hi
        rcases List.mem_append.mp hi with hmem | hmem
        · exact hstore i hmem
        · have hieq : i = newMonthlyInvoice l0 fd ld issue (due l0) := by
            simpa using hmem
          subst hieq
          have h0 := hrent l0 (List.mem_cons_self _ _)
          exact ⟨le_refl 0, by simpa [newMonthlyInvoice] using h0⟩
    · simp only [generateFor, if_neg hact]
      exact ih store hstore fun l hl => hrent l (List.mem_cons_of_mem _ hl)

/-- C9 amended: both pay endpoints, invoice generation and light-bill
creation (the latter given nonnegative `fixedCharge` and `tax` inputs)
preserve `0 ≤ paidAmount ≤ totalAmount`, and the late-fee recalculation
and the light-bill update leave `paidAmount` (hence its nonnegativity)
untouched — they do not, however, keep `paidAmount ≤ totalAmount` (see the
counterexample). -/
theorem operations_preserve_payment_bounds
    (amount : Money) (inv : Invoice) (ps : List Payment)
    (cfg : LateFeeConfig) (todayMs : ℤ)
    (bill : LightBill) (hasDate : Bool) (u : LightBillUpdate) (dup : Bool)
    (todayY todayM todayD : ℤ) (leases : List Lease) (store : List GenInvoice)
    (room tenant lease : ℕ) (pf pt : ℤ) (units rate fixed tax : Money)
    (issue due : ℤ) (bills : List LightBill)
    (hinv0 : 0 ≤ inv.paidAmount) (hinv1 : inv.paidAmount ≤ inv.totalAmount)
    (hb0 : 0 ≤ bill.paidAmount) (hb1 : bill.paidAmount ≤ bill.totalAmount)
    (hstore : ∀ i ∈ store, 0 ≤ i.paidAmount ∧ i.paidAmount ≤ i.totalAmount)
    (hrent : ∀ l ∈ leases, 0 ≤ l.rentPerMonth)
    (hfix : 0 ≤ fixed) (htax : 0 ≤ tax) :
    (0 ≤ (payInvoice amount inv ps).invoice.paidAmount ∧
      (payInvoice amount inv ps).invoice.paidAmount ≤
        (payInvoice amount inv ps).invoice.totalAmount) ∧
    (0 ≤ (payLightBill amount hasDate bill).1.paidAmount ∧
      (payLightBill amount hasDate bill).1.paidAmount ≤
        (payLightBill amount hasDate bill).1.totalAmount) ∧
    (∀ i ∈ (generateMonthly todayY todayM todayD leases store).2,
      0 ≤ i.paidAmount ∧ i.paidAmount ≤ i.totalAmount) ∧
    (∀ nb, (createLightBill room tenant lease pf pt units rate fixed tax
        issue due bills).1 = some nb →
      0 ≤ nb.paidAmount ∧ nb.paidAmount ≤ nb.totalAmount) ∧
    0 ≤ ((recalcInvoice cfg todayMs inv).1).paidAmount ∧
    0 ≤ (updateLightBill u dup bill).1.paidAmount := by
  refine ⟨?_, ?_, ?_, ?_, ?_, ?_⟩
  · by_cases ha : amount ≤ 0
    · simpa only [payInvoice, if_pos ha] using ⟨hinv0, hinv1⟩
    · by_cases hov : inv.totalAmount < inv.paidAmount + amount
      · simpa only [payInvoice, if_neg ha, if_pos hov] using ⟨hinv0, hinv1⟩
      · simp only [payInvoice, if_neg ha, if_neg hov]
        constructor
        · show (0 : Money) ≤ inv.paidAmount + amount
          have hp := not_le.mp ha
          linarith
        · show inv.paidAmount + amount ≤ inv.totalAmount
          exact not_lt.mp hov
  · by_cases ha : amount ≤ 0
    · simpa only [payLightBill, if_pos ha] using ⟨hb0, hb1⟩
    · by_cases hd : hasDate = false
      · simpa only [payLightBill, if_neg ha, if_pos hd] using ⟨hb0, hb1⟩
      · by_cases hov : bill.totalAmount < bill.paidAmount + amount
        · simpa only [payLightBill, if_neg ha, if_neg hd, if_pos hov] using
            ⟨hb0, hb1⟩
        · simp only [payLightBill, if_neg ha, if_neg hd, if_neg hov]
          constructor
          · show (0 : Money) ≤ bill.paidAmount + amount
            have hp := not_le.mp ha
            linarith
          · show bill.paidAmount + amount ≤ bill.totalAmount
            exact not_lt.mp hov
  · exact generateFor_payment_bounds _ _ _ _ leases store hstore hrent
  · intro nb hnb
    unfold createLightBill at hnb
    by_cases h1 : pt ≤ pf
    · rw [if_pos h1] at hnb
      exact absurd hnb (by simp)
    · rw [if_neg h1] at hnb
      by_cases h2 : units ≤ 0
      · rw [if_pos h2] at hnb
        exact absurd hnb (by simp)
      · rw [if_neg h2] at hnb
        by_cases h3 : rate ≤ 0
        · rw [if_pos h3] at hnb
          exact absurd hnb (by simp)
        · rw [if_neg h3] at hnb
          by_cases h4 : (bills.any fun b => b.room == room &&
              b.tenant == tenant && b.lease == lease &&
              b.periodFrom == pf && b.periodTo == pt) = true
          · rw [if_pos h4] at hnb
            exact absurd hnb (by simp)
          · rw [if_neg h4] at hnb
            have hbeq := Option.some.inj hnb
            rw [← hbeq]
            constructor
            · exact le_refl 0
            · show (0 : Money) ≤ units * rate + fixed + tax
              have hu := not_le.mp h2
              have hr := not_le.mp h3
              nlinarith
  · by_cases hst : inv.status = .unpaid ∨ inv.status = .partially_paid
    · rw [recalcInvoice_fst cfg todayMs inv hst]
      by_cases hc : computeLateFee cfg todayMs inv = inv.lateFee
      · rw [if_pos hc]
        exact hinv0
      · rw [if_neg hc]
        exact hinv0
    · simp only [recalcInvoice, if_neg hst]
      exact hinv0
  · simp only [updateLightBill]
    split
    · exact hb0
    · exact hb0

/-- Witness for C9's amended statement on concrete operands. -/
theorem operations_preserve_payment_bounds_witness :
    (0 ≤ (payInvoice 400 invC6 []).invoice.paidAmount ∧
      (payInvoice 400 invC6 []).invoice.paidAmount ≤
        (payInvoice 400 invC6 []).invoice.totalAmount) ∧
    (0 ≤ (payLightBill 400 true paidBillC9).1.paidAmount ∧
      (payLightBill 400 true paidBillC9).1.paidAmount ≤
        (payLightBill 400 true paidBillC9).1.totalAmount) ∧
    (∀ i ∈ (generateMonthly 2025 2 15 [marchLease] []).2,
      0 ≤ i.paidAmount ∧ i.paidAmount ≤ i.totalAmount) ∧
    (∀ nb, (createLightBill 1 1 1 0 10 100 8 50 20 0 5 []).1 = some nb →
      0 ≤ nb.paidAmount ∧ nb.paidAmount ≤ nb.totalAmount) ∧
    0 ≤ ((recalcInvoice perDayConfigC5 0 invC6).1).paidAmount ∧
    0 ≤ (updateLightBill lowerUnitsUpdateC9 false paidBillC9).1.paidAmount :=
  operations_preserve_payment_bounds 400 invC6 [] perDayConfigC5 0 paidBillC9
    true lowerUnitsUpdateC9 false 2025 2 15 [marchLease] [] 1 1 1 0 10 100 8
    50 20 0 5 []
    (by norm_num [invC6]) (by norm_num [invC6])
    (by norm_num [paidBillC9]) (by norm_num [paidBillC9])
    (by
      intro i hi
      exact absurd hi (List.not_mem_nil i))
    (by
      intro l hl
      rw [List.mem_singleton] at hl
      subst hl
      norm_num [marchLease])
    (by norm_num) (by norm_num)

/-- One light-bill operation never sets the status to `overdue`: paying
sets `paid` or `partially_paid` (or keeps the status), updating never
touches the status. -/
theorem lightBillStep_not_overdue (op : LightBillOp) (bill : LightBill)
    (h : bill.status ≠ .overdue) :
    (lightBillStep op bill).status ≠ .overdue := by
  cases op with
  | pay amount hasDate =>
    simp only [lightBillStep, payLightBill]
    split
    · exact h
    · split
      · exact h
      · split
        · exact h
        · split
          · simp
          · split
            · simp
            · simpa using h
  | update u dup =>
    simp only [lightBillStep, updateLightBill]
    split
    · exact h
    · simpa using h

/-- Any sequence of light-bill operations keeps the status away from
`overdue`. -/
theorem lightBillRun_not_overdue (ops : List LightBillOp) :
    ∀ bill : LightBill, bill.status ≠ .overdue →
      (lightBillRun ops bill).status ≠ .overdue := by
  induction ops with
  | nil =>
    intro bill h
    exact h
  | cons op ops ih =>
    intro bill h
    simpa only [lightBillRun, List.foldl_cons] using
      ih (lightBillStep op bill) (lightBillStep_not_overdue op bill h)

/-- C10: a light bill created by `POST /api/light-bills` starts `unpaid`,
and after any sequence of pay/update operations its status is still
`unpaid`, `partially_paid` or `paid` — never `overdue`, although the
schema enum includes it. -/
theorem lightBill_status_never_overdue
    (room tenant lease : ℕ) (pf pt : ℤ) (units rate fixed tax : Money)
    (issue due : ℤ) (bills : List LightBill) (bill : LightBill)
    (ops : List LightBillOp)
    (hc : (createLightBill room tenant lease pf pt units rate fixed tax issue
        due bills).1 = some bill) :
    (lightBillRun ops bill).status = .unpaid ∨
    (lightBillRun ops bill).status = .partially_paid ∨
    (lightBillRun ops bill).status = .paid := by
  have h0 : bill.status ≠ .overdue := by
    unfold createLightBill at hc
    by_cases h1 : pt ≤ pf
    · rw [if_pos h1] at hc
      exact absurd hc (by simp)
    · rw [if_neg h1] at hc
      by_cases h2 : units ≤ 0
      · rw [if_pos h2] at hc
        exact absurd hc (by simp)
      · rw [if_neg h2] at hc
        by_cases h3 : rate ≤ 0
        · rw [if_pos h3] at hc
          exact absurd hc (by simp)
        · rw [if_neg h3] at hc
          by_cases h4 : (bills.any fun b => b.room == room &&
              b.tenant == tenant && b.lease == lease &&
              b.periodFrom == pf && b.periodTo == pt) = true
          · rw [if_pos h4] at hc
            exact absurd hc (by simp)
          · rw [if_neg h4] at hc
            rw [← Option.some.inj hc]
            simp
  have h1 := lightBillRun_not_overdue ops bill h0
  cases hst : (lightBillRun ops bill).status with
  | unpaid => exact Or.inl rfl
  | partially_paid => exact Or.inr (Or.inl rfl)
  | paid => exact Or.inr (Or.inr rfl)
  | overdue => exact absurd hst h1

/-- Witness for C10: the concrete bill created from the scenario inputs,
partially paid then updated. -/
theorem lightBill_status_never_overdue_witness :
    (lightBillRun [.pay 400 true, .update lowerUnitsUpdateC9 false]
        ⟨1, 1, 1, 0, 10, 100, 8, 50, 20, 870, 0, 0, 5, .unpaid⟩).status =
      .unpaid ∨
    (lightBillRun [.pay 400 true, .update lowerUnitsUpdateC9 false]
        ⟨1, 1, 1, 0, 10, 100, 8, 50, 20, 870, 0, 0, 5, .unpaid⟩).status =
      .partially_paid ∨
    (lightBillRun [.pay 400 true, .update lowerUnitsUpdateC9 false]
        ⟨1, 1, 1, 0, 10, 100, 8, 50, 20, 870, 0, 0, 5, .unpaid⟩).status =
      .paid :=
  lightBill_status_never_overdue 1 1 1 0 10 100 8 50 20 0 5 []
    ⟨1, 1, 1, 0, 10, 100, 8, 50, 20, 870, 0, 0, 5, .unpaid⟩
    [.pay 400 true, .update lowerUnitsUpdateC9 false]
    (by norm_num [createLightBill])

end RoomRent
